import Mathlib

set_option maxHeartbeats 1000000
set_option maxRecDepth 10000

/-!  Shallow embedding of the transaction builder in src/src/lucid/tx.ts.

The external ledger-serialization engine (the C module) is modelled as a
recording fake: every call the builder makes on it (add_output, add_mint,
add_certificate, add_withdrawal, add_plutus_data, add_inputs_from, balance,
construct) is appended to the corresponding append-only section of
`BuilderState`, storing the arguments the source passes.  Cryptographic
hashing is recorded by its preimage (the engine owns the hash), and hex
decoding is the engine's responsibility and modelled as total on the
structured data the builder hands over.  JavaScript truthiness on optional
strings (the empty string is falsy) is modelled explicitly by `jsTruthy`. -/

deriving instance DecidableEq for Except

namespace LucidTx

/-- Kind of a credential: key hash or script hash (the `type` field of the
source's Credential objects). -/
inductive CredKind where
  | Key
  | Script
deriving DecidableEq

/-- Credential derived from an address part: kind plus hash hex string. -/
structure Credential where
  kind : CredKind
  hash : String
deriving DecidableEq

/-- Address kind reported by the Domain Resolver. -/
inductive AddrType where
  | Base
  | Enterprise
  | Pointer
  | Reward
  | Byron
deriving DecidableEq

/-- Address-like input, modelled by its decode result: a well-formed address
of one of the five kinds with its credential parts, or a string that fails to
decode (`malformed`). -/
inductive Addr where
  | base (payment stake : Credential)
  | enterprise (payment : Credential)
  | pointer (payment : Credential)
  | reward (stake : Credential)
  | byron (raw : String)
  | malformed (raw : String)
deriving DecidableEq

/-- Error taxonomy of the builder (spec section 7), plus the JavaScript
runtime TypeError raised by `units[0].slice` when `units` is empty. -/
inductive TxErr where
  | InvalidAddress
  | UnsupportedCredentialType
  | MixedPolicyError
  | ConflictingDatumError
  | UnspendableOutputError
  | UnknownScriptVariant
  | MetadataFetchError
  | InsufficientFundsError
  | MalformedEncoding
  | TypeError
deriving DecidableEq

/-- Decode result of `getAddressDetails`: the address kind and its payment
and stake credentials (the source nests the kind under an `address` object;
it is flattened here). -/
structure AddressDetails where
  addrType : AddrType
  paymentCredential : Option Credential
  stakeCredential : Option Credential
deriving DecidableEq

/-- Modelled from the spec: the Domain Resolver `getAddressDetails` lives in
src/utils/mod.ts, which is not included under src/.  Per spec section 4.1 it
decodes an address-like string and reports kind, payment credential and stake
credential, and fails with InvalidAddress when the encoding cannot be
decoded. -/
def getAddressDetails : Addr → Except TxErr AddressDetails
  | .base payment stake => .ok ⟨.Base, some payment, some stake⟩
  | .enterprise payment => .ok ⟨.Enterprise, some payment, none⟩
  | .pointer payment => .ok ⟨.Pointer, some payment, none⟩
  | .reward stake => .ok ⟨.Reward, none, some stake⟩
  | .byron _ => .ok ⟨.Byron, none, none⟩
  | .malformed _ => .error .InvalidAddress

/-- Engine call `C.RewardAddress.from_address`: yields the reward address
(represented by its stake credential) for reward-kind addresses and
undefined (`none`) for every other kind. -/
def rewardAddressFromAddress : Addr → Option Credential
  | .reward stake => some stake
  | _ => none

/-- True exactly for address strings that fail to decode; the engine call
`C.Address.from_bech32` throws on these. -/
def isMalformedAddr : Addr → Bool
  | .malformed _ => true
  | _ => false

/-- JavaScript truthiness of an optional string: absent and the empty string
are falsy. -/
def jsTruthy : Option String → Bool
  | some s => s != ""
  | none => false

/-- Normalizes an optional string the way a JavaScript conditional does:
a falsy value (absent or empty) becomes `none`. -/
def jsStr (o : Option String) : Option String :=
  if jsTruthy o then o else none

/-- Script language tag (the `type` field of a validator object). -/
inductive ScriptType where
  | Native
  | PlutusV1
  | PlutusV2
deriving DecidableEq

/-- Script payload: language tag plus hex-encoded body. -/
structure Script where
  type : ScriptType
  script : String
deriving DecidableEq

/-- Datum options of an output (the source's OutputData type). -/
structure OutputData where
  asHash : Option String := none
  inline : Option String := none
  scriptRef : Option Script := none
deriving DecidableEq

/-- Second argument of payToAddressWithData and payToContract: either a bare
datum string or an OutputData object. -/
inductive DatumOrOutputData where
  | str (d : String)
  | obj (o : OutputData)
deriving DecidableEq

/-- The source's normalization step: a bare datum string becomes an object
with only asHash set. -/
def normalizeOutputData : DatumOrOutputData → OutputData
  | .str d => { asHash := some d }
  | .obj o => o

/-- A ledger datum as handed to the engine: a data hash (recorded by the
preimage whose hash the engine computes) or inline data. -/
inductive CoreDatum where
  | dataHashOf (preimage : String)
  | inlineData (d : String)
deriving DecidableEq

/-- A transaction output as handed to the engine. -/
structure Output where
  address : Addr
  assets : List (String × Int)
  datum : Option CoreDatum := none
  scriptRef : Option Script := none
deriving DecidableEq

/-- One add_mint call: policy id, asset-name/quantity pairs, optional
redeemer script witness. -/
structure MintDirective where
  policyId : String
  assets : List (String × Int)
  witness : Option String
deriving DecidableEq

/-- A relay of a stake pool, as supplied by the caller. -/
inductive Relay where
  | singleHostIp (ipV4 ipV6 : Option String) (port : Nat)
  | singleHostDomainName (domainName : String) (port : Nat)
  | multiHost (domainName : String)
deriving DecidableEq

/-- A relay as handed to the engine: the IPv4 dotted quad is parsed into
bytes and the IPv6 string is stripped of colon separators (its hex decode is
the engine's). -/
inductive CoreRelay where
  | singleHostAddr (port : Nat) (ipV4 : Option (List Nat)) (ipV6 : Option String)
  | singleHostName (port : Nat) (dns : String)
  | multiHostName (dns : String)
deriving DecidableEq

/-- Parse of a dotted-quad IPv4 string via split on dots and parseInt per
component (a component parseInt cannot read contributes 0). -/
def ipv4Bytes (s : String) : List Nat :=
  (s.splitOn ".").map (fun b => (b.toNat?).getD 0)

/-- Relay conversion performed inside createPoolRegistration. -/
def convertRelay : Relay → CoreRelay
  | .singleHostIp ipV4 ipV6 port =>
      .singleHostAddr port ((jsStr ipV4).map ipv4Bytes)
        ((jsStr ipV6).map (fun s => s.replace ":" ""))
  | .singleHostDomainName domainName port => .singleHostName port domainName
  | .multiHost domainName => .multiHostName domainName

/-- Caller-supplied pool parameters. -/
structure PoolParams where
  poolId : String
  vrfKeyHash : String
  pledge : Int
  cost : Int
  margin : Rat
  rewardAddress : Addr
  owners : List Addr
  relays : List Relay
  metadataUrl : Option String := none
deriving DecidableEq

/-- The pool-registration certificate body built by createPoolRegistration;
metadata records the URL and the fetched bytes whose blake2b-256 hash the
engine computes; rewardAddress records the possibly undefined result of the
non-null-asserted from_address call. -/
structure PoolRegistration where
  poolId : String
  vrfKeyHash : String
  pledge : Int
  cost : Int
  margin : Rat
  rewardAddress : Option Credential
  owners : List String
  relays : List CoreRelay
  metadata : Option (String × List Nat)
  isUpdate : Bool := false
deriving DecidableEq

/-- A certificate as handed to add_certificate. -/
inductive Cert where
  | stakeDelegation (credential : Credential) (poolId : String)
  | stakeRegistration (credential : Credential)
  | stakeDeregistration (credential : Credential)
  | poolRegistration (reg : PoolRegistration)
  | poolRetirement (poolId : String) (epoch : Nat)
deriving DecidableEq

/-- A UTxO reference (only the identifying fields matter to the claims). -/
structure UTxO where
  txHash : String
  outputIndex : Nat
deriving DecidableEq

/-- Recording fake of the engine's TransactionBuilder: each section lists the
calls made on the engine, in order, with the arguments the source passes. -/
structure BuilderState where
  outputs : List Output := []
  mint : List MintDirective := []
  certificates : List (Cert × Option String) := []
  withdrawals : List (Option Credential × Int × Option String) := []
  plutusData : List String := []
  walletInputs : List (List UTxO × Addr) := []
  balanceCalls : List (Addr × Option CoreDatum) := []
  constructCalls : List (List UTxO × Addr) := []
deriving DecidableEq

/-- Tx.mintAssets: takes the policy id from the first unit, rejects a unit
with a different 56-character prefix with MixedPolicyError, and registers one
mint directive.  On an empty asset map the source evaluates
`units[0].slice(0, 56)` with `units[0]` undefined, which raises a JavaScript
TypeError. -/
def mintAssets (assets : List (String × Int)) (redeemer : Option String)
    (st : BuilderState) : Except TxErr BuilderState :=
  match assets.map Prod.fst with
  | [] => .error .TypeError
  | u0 :: rest =>
    let policyId := u0.take 56
    if (u0 :: rest).all (fun u => u.take 56 == policyId) then
      .ok { st with mint := st.mint ++
        [{ policyId := policyId
           assets := assets.map (fun p => (p.fst.drop 56, p.snd))
           witness := jsStr redeemer }] }
    else .error .MixedPolicyError

/-- Tx.payToAddress: decode the address and append a plain output. -/
def payToAddress (address : Addr) (assets : List (String × Int))
    (st : BuilderState) : Except TxErr BuilderState :=
  if isMalformedAddr address then .error .InvalidAddress
  else .ok { st with outputs := st.outputs ++ [{ address := address, assets := assets }] }

/-- Tx.payToAddressWithData: normalize a bare datum string, reject asHash
together with inline, decode the address, set the datum (registering the
asHash preimage in the plutus-data witness set) and script reference, and
append the output. -/
def payToAddressWithData (address : Addr) (outputData : DatumOrOutputData)
    (assets : List (String × Int)) (st : BuilderState) : Except TxErr BuilderState :=
  let od := normalizeOutputData outputData
  if jsTruthy od.asHash && jsTruthy od.inline then .error .ConflictingDatumError
  else if isMalformedAddr address then .error .InvalidAddress
  else
    let st1 := if jsTruthy od.asHash then
        { st with plutusData := st.plutusData ++ [od.asHash.getD ""] }
      else st
    let datum : Option CoreDatum :=
      if jsTruthy od.asHash then some (.dataHashOf (od.asHash.getD ""))
      else if jsTruthy od.inline then some (.inlineData (od.inline.getD ""))
      else none
    .ok { st1 with outputs := st1.outputs ++
      [{ address := address, assets := assets, datum := datum, scriptRef := od.scriptRef }] }

/-- Tx.payToContract: normalize a bare datum string, reject an output with
neither datum kind set as unspendable, then delegate to
payToAddressWithData. -/
def payToContract (address : Addr) (outputData : DatumOrOutputData)
    (assets : List (String × Int)) (st : BuilderState) : Except TxErr BuilderState :=
  let od := normalizeOutputData outputData
  if !(jsTruthy od.asHash || jsTruthy od.inline) then .error .UnspendableOutputError
  else payToAddressWithData address (.obj od) assets st

/-- Tx.delegateTo: resolve the reward address, require the Reward kind with a
stake credential, and append a stake-delegation certificate with the optional
redeemer witness. -/
def delegateTo (rewardAddress : Addr) (poolId : String) (redeemer : Option String)
    (st : BuilderState) : Except TxErr BuilderState :=
  match getAddressDetails rewardAddress with
  | .error e => .error e
  | .ok details =>
    match details.addrType, details.stakeCredential with
    | .Reward, some credential =>
        .ok { st with certificates := st.certificates ++
          [(.stakeDelegation credential poolId, jsStr redeemer)] }
    | _, _ => .error .InvalidAddress

/-- Tx.registerStake: resolve the reward address, require the Reward kind
with a stake credential, and append a stake-registration certificate (never
with a redeemer). -/
def registerStake (rewardAddress : Addr) (st : BuilderState) : Except TxErr BuilderState :=
  match getAddressDetails rewardAddress with
  | .error e => .error e
  | .ok details =>
    match details.addrType, details.stakeCredential with
    | .Reward, some credential =>
        .ok { st with certificates := st.certificates ++
          [(.stakeRegistration credential, none)] }
    | _, _ => .error .InvalidAddress

/-- Tx.deregisterStake: resolve the reward address, require the Reward kind
with a stake credential, and append a stake-deregistration certificate with
the optional redeemer witness. -/
def deregisterStake (rewardAddress : Addr) (redeemer : Option String)
    (st : BuilderState) : Except TxErr BuilderState :=
  match getAddressDetails rewardAddress with
  | .error e => .error e
  | .ok details =>
    match details.addrType, details.stakeCredential with
    | .Reward, some credential =>
        .ok { st with certificates := st.certificates ++
          [(.stakeDeregistration credential, jsStr redeemer)] }
    | _, _ => .error .InvalidAddress

/-- Tx.withdraw: decodes the address with from_bech32 and applies a
TypeScript non-null assertion to RewardAddress.from_address, which at runtime
passes the possibly undefined result straight to add_withdrawal; there is no
reward-address kind check. -/
def withdraw (rewardAddress : Addr) (amount : Int) (redeemer : Option String)
    (st : BuilderState) : Except TxErr BuilderState :=
  if isMalformedAddr rewardAddress then .error .InvalidAddress
  else .ok { st with withdrawals := st.withdrawals ++
    [(rewardAddressFromAddress rewardAddress, amount, jsStr redeemer)] }

/-- Tx.retirePool: append a pool-retirement certificate. -/
def retirePool (poolId : String) (epoch : Nat) (st : BuilderState) : Except TxErr BuilderState :=
  .ok { st with certificates := st.certificates ++ [(.poolRetirement poolId epoch, none)] }

/-- External collaborators consumed by the builder: the wallet's UTxO set and
default change address, and the pool-metadata fetcher (bytes on success,
failure otherwise). -/
structure Env where
  getUtxos : List UTxO := []
  walletAddress : Addr
  fetchMetadata : String → Option (List Nat) := fun _ => none

/-- Resolution of one pool-owner address inside createPoolRegistration: the
owner must resolve to a key-hash stake credential; a script credential or a
missing stake part hits the same throw. -/
def resolveOwner (owner : Addr) : Except TxErr String :=
  match getAddressDetails owner with
  | .error e => .error e
  | .ok details =>
    match details.stakeCredential with
    | some c => if c.kind == CredKind.Key then .ok c.hash else .error .UnsupportedCredentialType
    | none => .error .UnsupportedCredentialType

/-- The owners forEach loop of createPoolRegistration: resolve each owner in
order, stopping at the first failure. -/
def resolveOwners : List Addr → Except TxErr (List String)
  | [] => .ok []
  | o :: os =>
    match resolveOwner o with
    | .error e => .error e
    | .ok h =>
      match resolveOwners os with
      | .error e => .error e
      | .ok hs => .ok (h :: hs)

/-- The metadata step of createPoolRegistration: a truthy metadataUrl is
fetched (a failed fetch is fatal, spec kind MetadataFetchError); the result
records the URL together with the fetched bytes whose hash the engine
computes. -/
def fetchPoolMetadata (env : Env) (metadataUrl : Option String) :
    Except TxErr (Option (String × List Nat)) :=
  match jsStr metadataUrl with
  | some url =>
    match env.fetchMetadata url with
    | some bytes => .ok (some (url, bytes))
    | none => .error .MetadataFetchError
  | none => .ok none

/-- createPoolRegistration: resolve the owners (first), fetch and hash the
metadata (second), convert the relays, and assemble the certificate body,
decoding the reward address with from_bech32 and applying the source's
non-null assertion to from_address (recorded as an Option). -/
def createPoolRegistration (env : Env) (poolParams : PoolParams) :
    Except TxErr PoolRegistration :=
  match resolveOwners poolParams.owners with
  | .error e => .error e
  | .ok poolOwners =>
    match fetchPoolMetadata env poolParams.metadataUrl with
    | .error e => .error e
    | .ok metadata =>
      if isMalformedAddr poolParams.rewardAddress then .error .InvalidAddress
      else .ok
        { poolId := poolParams.poolId
          vrfKeyHash := poolParams.vrfKeyHash
          pledge := poolParams.pledge
          cost := poolParams.cost
          margin := poolParams.margin
          rewardAddress := rewardAddressFromAddress poolParams.rewardAddress
          owners := poolOwners
          relays := poolParams.relays.map convertRelay
          metadata := metadata
          isUpdate := false }

/-- A deferred task on the builder's queue, as a tagged command (the claims
reference only the pool-registration tasks; the datum-resolving input tasks
of readFrom and collectFrom are not needed by any claim). -/
inductive Task where
  | registerPool (poolParams : PoolParams)
  | updatePool (poolParams : PoolParams)
deriving DecidableEq

/-- The whole builder: the engine state plus the private tasks array. -/
structure TxSt where
  builder : BuilderState := {}
  tasks : List Task := []
deriving DecidableEq

/-- Tx.registerPool: only pushes a deferred task; the call itself never
fails. -/
def registerPool (poolParams : PoolParams) (st : TxSt) : TxSt :=
  { st with tasks := st.tasks ++ [Task.registerPool poolParams] }

/-- Tx.updatePool: only pushes a deferred task; the call itself never
fails. -/
def updatePool (poolParams : PoolParams) (st : TxSt) : TxSt :=
  { st with tasks := st.tasks ++ [Task.updatePool poolParams] }

/-- Execution of one deferred task against the engine state. -/
def runTask (env : Env) : Task → BuilderState → Except TxErr BuilderState
  | .registerPool pp, b =>
    match createPoolRegistration env pp with
    | .error e => .error e
    | .ok reg => .ok { b with certificates := b.certificates ++ [(.poolRegistration reg, none)] }
  | .updatePool pp, b =>
    match createPoolRegistration env pp with
    | .error e => .error e
    | .ok reg => .ok { b with certificates := b.certificates ++
        [(.poolRegistration { reg with isUpdate := true }, none)] }

/-- The drain loop of Tx.complete (`for task of tasks: await task()`):
execute each task to completion in queue order over the threaded state,
stopping at the first failure. -/
def drainLoop {σ ε : Type} : List (σ → Except ε σ) → σ → Except ε σ
  | [], s => .ok s
  | t :: ts, s =>
    match t s with
    | .ok s2 => drainLoop ts s2
    | .error e => .error e

/-- The change-datum options of Tx.complete. -/
structure ChangeDatumOpts where
  asHash : Option String := none
  inline : Option String := none
deriving DecidableEq

/-- The options argument of Tx.complete. -/
structure CompleteOptions where
  changeAddress : Option Addr := none
  datum : Option ChangeDatumOpts := none
  coinSelection : Option Bool := none
deriving DecidableEq

/-- Optional-chained read of options?.datum?.asHash. -/
def optAsHash (options : Option CompleteOptions) : Option String :=
  (options.bind CompleteOptions.datum).bind ChangeDatumOpts.asHash

/-- Optional-chained read of options?.datum?.inline. -/
def optInline (options : Option CompleteOptions) : Option String :=
  (options.bind CompleteOptions.datum).bind ChangeDatumOpts.inline

/-- The coin-selection condition of Tx.complete, translated from
`options?.coinSelection || options?.coinSelection === undefined`: true when
the option is true or entirely unspecified, false only when it is explicitly
false. -/
def jsCoinSelectionCond (options : Option CompleteOptions) : Bool :=
  match options.bind CompleteOptions.coinSelection with
  | some b => b
  | none => true

/-- Finalization phase of Tx.complete after the drain: fetch the wallet UTxO
set, resolve the change address (caller-supplied or the wallet default), run
automatic coin selection unless explicitly disabled, balance with the
optional change datum, register the asHash preimage in the plutus-data
witness set, and hand the result to the engine's construct.  The tasks array
is carried through unchanged because the source never clears it. -/
def completeFinish (env : Env) (options : Option CompleteOptions) (tasks : List Task)
    (b : BuilderState) : Except TxErr TxSt :=
  let utxos := env.getUtxos
  let changeAddress := (options.bind CompleteOptions.changeAddress).getD env.walletAddress
  if isMalformedAddr changeAddress then .error .InvalidAddress
  else
    let b1 := if jsCoinSelectionCond options then
        { b with walletInputs := b.walletInputs ++ [(utxos, changeAddress)] }
      else b
    let changeDatum : Option CoreDatum :=
      if jsTruthy (optAsHash options) then some (.dataHashOf ((optAsHash options).getD ""))
      else if jsTruthy (optInline options) then some (.inlineData ((optInline options).getD ""))
      else none
    let b2 := { b1 with balanceCalls := b1.balanceCalls ++ [(changeAddress, changeDatum)] }
    let b3 := if jsTruthy (optAsHash options) then
        { b2 with plutusData := b2.plutusData ++ [(optAsHash options).getD ""] }
      else b2
    let b4 := { b3 with constructCalls := b3.constructCalls ++ [(utxos, changeAddress)] }
    .ok { builder := b4, tasks := tasks }

/-- Tx.complete: reject conflicting change-datum options before anything
else runs, drain the task queue in order, then finalize. -/
def complete (env : Env) (options : Option CompleteOptions) (st : TxSt) :
    Except TxErr TxSt :=
  if jsTruthy (optAsHash options) && jsTruthy (optInline options) then
    .error .ConflictingDatumError
  else
    match drainLoop (st.tasks.map (runTask env)) st.builder with
    | .error e => .error e
    | .ok b => completeFinish env options st.tasks b

/-- A key-hash credential used by the concrete witnesses. -/
def kcred : Credential := { kind := .Key, hash := "aa" }

/-- A script-hash credential used by the concrete witnesses. -/
def scred : Credential := { kind := .Script, hash := "bb" }

/-- A well-formed reward address with a key-hash stake credential. -/
def rewardK : Addr := .reward kcred

/-- A well-formed reward address with a script-hash stake credential. -/
def rewardS : Addr := .reward scred

/-- A well-formed base address (a non-reward address). -/
def baseA : Addr := .base kcred kcred

/-- A concrete collaborator environment: empty wallet UTxO set, the base
address as the wallet's default change address, no reachable metadata. -/
def env0 : Env := { walletAddress := baseA }

/-- The engine state of a freshly constructed builder. -/
def emptyB : BuilderState := {}

/-- A freshly constructed Tx. -/
def emptyTx : TxSt := {}

/-- Concrete pool parameters whose single owner resolves to a key-hash stake
credential and that carry no metadata URL. -/
def ppGood : PoolParams :=
  { poolId := "pool1", vrfKeyHash := "vrf", pledge := 0, cost := 0, margin := 0,
    rewardAddress := rewardK, owners := [rewardK], relays := [] }

/-- The same pool parameters with the owner replaced by an address resolving
to a script-hash stake credential. -/
def ppScript : PoolParams := { ppGood with owners := [rewardS] }

/-- A Tx holding exactly one deferred pool-registration task. -/
def stOneTask : TxSt := registerPool ppGood emptyTx

/-- The certificate body the deferred task of `stOneTask` builds. -/
def reg0 : PoolRegistration :=
  { poolId := "pool1", vrfKeyHash := "vrf", pledge := 0, cost := 0, margin := 0,
    rewardAddress := some kcred, owners := ["aa"], relays := [], metadata := none }

/-- The state `complete` returns on `stOneTask`: the certificate is added and
every engine call is recorded, but the task queue still holds the task. -/
def stOneTaskAfter : TxSt :=
  { builder :=
      { certificates := [(.poolRegistration reg0, none)]
        walletInputs := [([], baseA)]
        balanceCalls := [(baseA, none)]
        constructCalls := [([], baseA)] }
    tasks := [Task.registerPool ppGood] }

/-- The state a second `complete` on `stOneTaskAfter` returns: the deferred
task ran again, so the pool-registration certificate is now present twice. -/
def stTwiceAfter : TxSt :=
  { builder :=
      { certificates := [(.poolRegistration reg0, none), (.poolRegistration reg0, none)]
        walletInputs := [([], baseA), ([], baseA)]
        balanceCalls := [(baseA, none), (baseA, none)]
        constructCalls := [([], baseA), ([], baseA)] }
    tasks := [Task.registerPool ppGood] }

/-- A 56-character policy id (56 copies of the letter a). -/
def policyA : String := String.mk (List.replicate 56 (Char.ofNat 97))

/-- A different 56-character policy id (56 copies of the letter b). -/
def policyB : String := String.mk (List.replicate 56 (Char.ofNat 98))

/-- Change-datum options setting both asHash and inline to non-empty
strings. -/
def conflictingOpts : CompleteOptions :=
  { datum := some { asHash := some "dd", inline := some "ee" } }

/-- Change-datum options setting asHash to the empty string and inline to a
non-empty string: both fields are set, but the asHash is falsy. -/
def emptyHashOpts : CompleteOptions :=
  { datum := some { asHash := some "", inline := some "dd" } }

/-- A deferred task for the FIFO-drain property: it appends its execution
index `idx` to the shared log.  The `latency` argument models the task's
completion time; because the drain loop awaits each task to completion
before starting the next, the state transition a task performs is
independent of its latency. -/
def recordingTask (idx latency : Nat) : List Nat → Except TxErr (List Nat) :=
  fun log => .ok (log ++ [idx])

/-- Draining a queue of recording tasks appends their indices, in queue
order, to the log. -/
theorem drainLoop_recording (idxs : List Nat) (f g : Nat → Nat) (acc : List Nat) :
    drainLoop (idxs.map (fun i => recordingTask (f i) (g i))) acc =
      .ok (acc ++ idxs.map f) := by
  induction idxs generalizing acc with
  | nil => simp [drainLoop]
  | cons i is ih =>
    simp only [List.map_cons, drainLoop, recordingTask]
    rw [ih (acc ++ [f i])]
    simp

/-- C9: calling mintAssets with an empty asset map raises the JavaScript
TypeError coming from `units[0].slice` on an undefined first unit — an
error, and not MixedPolicyError — rather than registering an empty mint
directive. -/
theorem mintAssets_empty_map_typeerror (redeemer : Option String) (st : BuilderState) :
    mintAssets [] redeemer st = .error .TypeError ∧
    TxErr.TypeError ≠ TxErr.MixedPolicyError :=
  ⟨rfl, by decide⟩

/-- C2: the drain loop of complete executes every queued deferred task
exactly once, in strict enqueue (FIFO) order, awaiting each task to
completion before starting the next: for tasks numbered 1..n that each
record their execution index, the log after the drain is exactly
`[1, ..., n]`, for every assignment of completion latencies. -/
theorem complete_drains_tasks_in_fifo_order (n : Nat) (latency : Nat → Nat) :
    drainLoop ((List.range n).map (fun i => recordingTask (i + 1) (latency i))) [] =
      .ok (List.range' 1 n) := by
  rw [drainLoop_recording (List.range n) (fun i => i + 1) latency []]
  rw [List.range'_eq_map_range]
  simp [Nat.add_comm]

/-- C1 (amended): delegateTo, registerStake and deregisterStake resolve the
stake credential of every well-formed reward address and append their
certificate, and fail with InvalidAddress on every non-reward address; but
withdraw performs no reward-address kind check: on a well-formed reward
address it appends the withdrawal with the resolved reward address, and on a
base address it does not fail with InvalidAddress — it passes the undefined
result of the non-null-asserted from_address call through to
add_withdrawal. -/
theorem stake_ops_reward_check_amended :
    (∀ (c : Credential) (pid : String) (rdm : Option String) (st : BuilderState),
        delegateTo (Addr.reward c) pid rdm st =
          .ok { st with certificates := st.certificates ++
            [(.stakeDelegation c pid, jsStr rdm)] })
  ∧ (∀ (c : Credential) (st : BuilderState),
        registerStake (Addr.reward c) st =
          .ok { st with certificates := st.certificates ++
            [(.stakeRegistration c, none)] })
  ∧ (∀ (c : Credential) (rdm : Option String) (st : BuilderState),
        deregisterStake (Addr.reward c) rdm st =
          .ok { st with certificates := st.certificates ++
            [(.stakeDeregistration c, jsStr rdm)] })
  ∧ (∀ (c : Credential) (amt : Int) (rdm : Option String) (st : BuilderState),
        withdraw (Addr.reward c) amt rdm st =
          .ok { st with withdrawals := st.withdrawals ++ [(some c, amt, jsStr rdm)] })
  ∧ (∀ (payment stake : Credential) (amt : Int) (rdm : Option String) (st : BuilderState),
        withdraw (Addr.base payment stake) amt rdm st =
          .ok { st with withdrawals := st.withdrawals ++ [(none, amt, jsStr rdm)] })
  ∧ (∀ (a : Addr) (pid : String) (rdm : Option String) (st : BuilderState),
        (∀ c, a ≠ Addr.reward c) →
        delegateTo a pid rdm st = .error .InvalidAddress ∧
        registerStake a st = .error .InvalidAddress ∧
        deregisterStake a rdm st = .error .InvalidAddress) := by
  refine ⟨fun c pid rdm st => rfl, fun c st => rfl, fun c rdm st => rfl,
    fun c amt rdm st => rfl, fun payment stake amt rdm st => rfl, ?_⟩
  intro a pid rdm st h
  cases a with
  | reward stake => exact absurd rfl (h stake)
  | base payment stake => exact ⟨rfl, rfl, rfl⟩
  | enterprise payment => exact ⟨rfl, rfl, rfl⟩
  | pointer payment => exact ⟨rfl, rfl, rfl⟩
  | byron raw => exact ⟨rfl, rfl, rfl⟩
  | malformed raw => exact ⟨rfl, rfl, rfl⟩

/-- Witness for the amended C1 theorem at concrete inputs: the three
checking operations reject a base address with InvalidAddress and delegateTo
succeeds on a reward address. -/
theorem stake_ops_reward_check_witness :
    delegateTo baseA "p" none emptyB = .error .InvalidAddress ∧
    registerStake baseA emptyB = .error .InvalidAddress ∧
    deregisterStake baseA none emptyB = .error .InvalidAddress ∧
    (delegateTo rewardK "p" none emptyB).isOk = true :=
  have h := stake_ops_reward_check_amended.2.2.2.2.2 baseA "p" none emptyB
    (fun c hc => Addr.noConfusion hc)
  ⟨h.1, h.2.1, h.2.2, by
    show (delegateTo (Addr.reward kcred) "p" none emptyB).isOk = true
    rw [stake_ops_reward_check_amended.1 kcred "p" none emptyB]
    rfl⟩

/-- Counterexample to C1 as stated: withdraw on a well-formed base address
does not fail with InvalidAddress; it succeeds and records a withdrawal
whose reward-address argument is undefined. -/
theorem withdraw_no_reward_check_counterexample :
    withdraw baseA 7 none emptyB = .ok { emptyB with withdrawals := [(none, 7, none)] } ∧
    withdraw baseA 7 none emptyB ≠ .error .InvalidAddress :=
  ⟨rfl, by decide⟩

/-- C4 (amended): whenever the change-datum options set both asHash and
inline to non-empty (truthy) strings, complete fails with
ConflictingDatumError for every collaborator environment and every builder
state — in particular before any deferred task is executed and before any
external collaborator is consulted. -/
theorem complete_conflicting_change_datum_amended
    (env : Env) (options : Option CompleteOptions) (st : TxSt) (a i : String)
    (ha : optAsHash options = some a) (hna : a ≠ "")
    (hi : optInline options = some i) (hni : i ≠ "") :
    complete env options st = .error .ConflictingDatumError := by
  unfold complete
  rw [ha, hi]
  simp [jsTruthy, hna, hni]

/-- Witness for the amended C4 theorem: with both change-datum options set
to non-empty strings, complete fails with ConflictingDatumError even on a
builder whose queue holds a pending task. -/
theorem complete_conflicting_change_datum_witness :
    complete env0 (some conflictingOpts) stOneTask = .error .ConflictingDatumError :=
  complete_conflicting_change_datum_amended env0 (some conflictingOpts) stOneTask
    "dd" "ee" rfl (by decide) rfl (by decide)

/-- Counterexample to C4 as stated: options that set both asHash and inline,
with asHash the empty string, do not fail with ConflictingDatumError — the
empty string is falsy, so the conflict check passes and complete
succeeds. -/
theorem complete_conflicting_change_datum_counterexample :
    (complete env0 (some emptyHashOpts) emptyTx).isOk = true ∧
    complete env0 (some emptyHashOpts) emptyTx ≠ .error .ConflictingDatumError := by
  constructor
  · decide
  · decide

/-- Running one deferred task never touches the record of add_inputs_from
calls (tasks only add certificates and witness data). -/
theorem runTask_preserves_walletInputs (env : Env) (t : Task) (b b' : BuilderState)
    (h : runTask env t b = .ok b') : b'.walletInputs = b.walletInputs := by
  cases t with
  | registerPool pp =>
    simp only [runTask] at h
    cases hc : createPoolRegistration env pp with
    | error e => rw [hc] at h; exact absurd h (by simp)
    | ok reg => rw [hc] at h; simp only [Except.ok.injEq] at h; subst h; rfl
  | updatePool pp =>
    simp only [runTask] at h
    cases hc : createPoolRegistration env pp with
    | error e => rw [hc] at h; exact absurd h (by simp)
    | ok reg => rw [hc] at h; simp only [Except.ok.injEq] at h; subst h; rfl

/-- Draining the task queue never touches the record of add_inputs_from
calls. -/
theorem drainLoop_preserves_walletInputs (env : Env) (ts : List Task) (b b' : BuilderState)
    (h : drainLoop (ts.map (runTask env)) b = .ok b') : b'.walletInputs = b.walletInputs := by
  induction ts generalizing b with
  | nil =>
    simp only [List.map_nil, drainLoop, Except.ok.injEq] at h
    rw [h]
  | cons t ts ih =>
    simp only [List.map_cons, drainLoop] at h
    cases ht : runTask env t b with
    | error e => rw [ht] at h; exact absurd h (by simp)
    | ok b2 =>
      rw [ht] at h
      exact (ih b2 h).trans (runTask_preserves_walletInputs env t b b2 ht)

/-- The finalization phase returns the task list it was given, records
exactly one add_inputs_from call when (and only when) the source's
coin-selection condition holds, and records one balance and one construct
call. -/
theorem completeFinish_ok (env : Env) (options : Option CompleteOptions)
    (tasks : List Task) (b : BuilderState) (st' : TxSt)
    (h : completeFinish env options tasks b = .ok st') :
    st'.tasks = tasks ∧
    st'.builder.walletInputs.length =
      b.walletInputs.length + (if jsCoinSelectionCond options then 1 else 0) := by
  unfold completeFinish at h
  by_cases hmal :
      isMalformedAddr ((options.bind CompleteOptions.changeAddress).getD env.walletAddress) = true
  · rw [if_pos hmal] at h; exact absurd h (by simp)
  · rw [if_neg hmal] at h
    simp only [Except.ok.injEq] at h
    subst h
    refine ⟨rfl, ?_⟩
    by_cases hah : jsTruthy (optAsHash options) = true <;>
      by_cases hcs : jsCoinSelectionCond options = true <;>
        simp [hah, hcs]

/-- C3 (amended): complete never clears the task queue — a successful
complete returns the builder with its task list unchanged, so a second
complete (or any later drain) re-executes every one of the n queued tasks
rather than zero of them. -/
theorem complete_does_not_clear_task_queue
    (env : Env) (options : Option CompleteOptions) (st st' : TxSt)
    (h : complete env options st = .ok st') : st'.tasks = st.tasks := by
  unfold complete at h
  by_cases hconf : (jsTruthy (optAsHash options) && jsTruthy (optInline options)) = true
  · rw [if_pos hconf] at h; exact absurd h (by simp)
  · rw [if_neg hconf] at h
    cases hd : drainLoop (st.tasks.map (runTask env)) st.builder with
    | error e => rw [hd] at h; exact absurd h (by simp)
    | ok b =>
      rw [hd] at h
      exact (completeFinish_ok env options st.tasks b st' h).1

/-- Witness for the amended C3 theorem: on a builder holding one deferred
task, complete succeeds and the returned state still holds that task. -/
theorem complete_does_not_clear_task_queue_witness :
    complete env0 none stOneTask = .ok stOneTaskAfter ∧
    stOneTaskAfter.tasks = stOneTask.tasks :=
  have h : complete env0 none stOneTask = .ok stOneTaskAfter := by decide
  ⟨h, complete_does_not_clear_task_queue env0 none stOneTask stOneTaskAfter h⟩

/-- Counterexample to C3 as stated: after a first complete on a builder with
one queued task, the queue is not empty, and a second complete executes the
task again — the pool-registration certificate ends up in the builder
twice. -/
theorem second_complete_reexecutes_tasks_counterexample :
    complete env0 none stOneTask = .ok stOneTaskAfter ∧
    stOneTaskAfter.tasks ≠ [] ∧
    complete env0 none stOneTaskAfter = .ok stTwiceAfter ∧
    stTwiceAfter.builder.certificates.length = 2 := by
  refine ⟨by decide, by decide, by decide, by decide⟩

/-- C7: the automatic coin selection of complete has a three-way semantic —
it runs when coinSelection is true and when it is entirely unspecified
(absent options, or absent field), and is skipped exactly when coinSelection
is explicitly false; and every successful complete records one
add_inputs_from call when the condition holds and none when it does not. -/
theorem complete_coin_selection_three_way :
    (∀ (options : Option CompleteOptions),
        jsCoinSelectionCond options = true ↔
          options.bind CompleteOptions.coinSelection ≠ some false)
  ∧ (∀ (env : Env) (options : Option CompleteOptions) (st st' : TxSt),
        complete env options st = .ok st' →
        st'.builder.walletInputs.length =
          st.builder.walletInputs.length +
            (if jsCoinSelectionCond options then 1 else 0)) := by
  constructor
  · intro options
    unfold jsCoinSelectionCond
    cases hv : options.bind CompleteOptions.coinSelection with
    | none => simp
    | some b => cases b <;> simp
  · intro env options st st' h
    unfold complete at h
    by_cases hconf : (jsTruthy (optAsHash options) && jsTruthy (optInline options)) = true
    · rw [if_pos hconf] at h; exact absurd h (by simp)
    · rw [if_neg hconf] at h
      cases hd : drainLoop (st.tasks.map (runTask env)) st.builder with
      | error e => rw [hd] at h; exact absurd h (by simp)
      | ok b =>
        rw [hd] at h
        have hw := drainLoop_preserves_walletInputs env st.tasks st.builder b hd
        have hf := (completeFinish_ok env options st.tasks b st' h).2
        rw [hf, hw]

/-- Witness for the C7 theorem at concrete inputs: with options entirely
unspecified, complete runs coin selection and records exactly one
add_inputs_from call, and the condition agrees with the three-way
semantics. -/
theorem complete_coin_selection_three_way_witness :
    (jsCoinSelectionCond none = true ↔
      (none : Option CompleteOptions).bind CompleteOptions.coinSelection ≠ some false) ∧
    complete env0 none stOneTask = .ok stOneTaskAfter ∧
    stOneTaskAfter.builder.walletInputs.length =
      stOneTask.builder.walletInputs.length +
        (if jsCoinSelectionCond none then 1 else 0) :=
  have h : complete env0 none stOneTask = .ok stOneTaskAfter := by decide
  ⟨complete_coin_selection_three_way.1 none, h,
    complete_coin_selection_three_way.2 env0 none stOneTask stOneTaskAfter h⟩

/-- C5: mintAssets fails with MixedPolicyError whenever the asset map holds
two units with distinct 56-character policy-id prefixes — synchronously, at
the mintAssets call itself, with no deferred task involved and no state
registered — and succeeds on every non-empty asset map whose units all
share one policy-id prefix, regardless of how many assets the map
contains. -/
theorem mintAssets_single_policy :
    (∀ (assets : List (String × Int)) (redeemer : Option String) (st : BuilderState)
        (u1 u2 : String × Int), u1 ∈ assets → u2 ∈ assets →
        u1.1.take 56 ≠ u2.1.take 56 →
        mintAssets assets redeemer st = .error .MixedPolicyError)
  ∧ (∀ (assets : List (String × Int)) (redeemer : Option String) (st : BuilderState),
        assets ≠ [] →
        (∀ u1 ∈ assets, ∀ u2 ∈ assets, u1.1.take 56 = u2.1.take 56) →
        (mintAssets assets redeemer st).isOk = true) := by
  constructor
  · intro assets redeemer st u1 u2 h1 h2 hne
    cases assets with
    | nil => exact absurd h1 (List.not_mem_nil u1)
    | cons a rest =>
      have hmem1 : u1.1 ∈ ((a :: rest).map Prod.fst) := List.mem_map_of_mem Prod.fst h1
      have hmem2 : u2.1 ∈ ((a :: rest).map Prod.fst) := List.mem_map_of_mem Prod.fst h2
      rw [List.map_cons] at hmem1 hmem2
      by_cases hall :
          ((a.1 :: rest.map Prod.fst).all (fun u => u.take 56 == a.1.take 56)) = true
      · exfalso
        have e1 := List.all_eq_true.mp hall u1.1 hmem1
        have e2 := List.all_eq_true.mp hall u2.1 hmem2
        exact hne ((eq_of_beq e1).trans (eq_of_beq e2).symm)
      · simp only [mintAssets, List.map_cons]
        rw [if_neg hall]
  · intro assets redeemer st hne hall
    cases assets with
    | nil => exact absurd rfl hne
    | cons a rest =>
      have hcond :
          ((a.1 :: rest.map Prod.fst).all (fun u => u.take 56 == a.1.take 56)) = true := by
        rw [List.all_eq_true]
        intro u hu
        rw [← List.map_cons] at hu
        obtain ⟨p, hp, rfl⟩ := List.mem_map.mp hu
        exact beq_iff_eq.mpr (hall p hp a (List.mem_cons_self a rest))
      simp only [mintAssets, List.map_cons]
      rw [if_pos hcond]
      rfl

/-- Witness for the C5 theorem at concrete inputs: two units under distinct
56-character policy ids are rejected with MixedPolicyError, and three units
under one policy id succeed. -/
theorem mintAssets_single_policy_witness :
    mintAssets [(policyA ++ "01", 1), (policyB ++ "02", 2)] none emptyB =
      .error .MixedPolicyError ∧
    (mintAssets [(policyA ++ "01", 1), (policyA ++ "02", 2), (policyA ++ "03", 3)]
      none emptyB).isOk = true :=
  ⟨mintAssets_single_policy.1 [(policyA ++ "01", 1), (policyB ++ "02", 2)] none emptyB
      (policyA ++ "01", 1) (policyB ++ "02", 2) (by decide) (by decide) (by decide),
   mintAssets_single_policy.2 [(policyA ++ "01", 1), (policyA ++ "02", 2), (policyA ++ "03", 3)]
      none emptyB (by decide) (by decide)⟩

/-- With at least one truthy datum kind, the unspendable-output check of
payToContract passes and the call delegates to payToAddressWithData on the
normalized output data, which is exactly what payToAddressWithData computes
from the original argument. -/
theorem payToContract_delegates (address : Addr) (od : DatumOrOutputData)
    (assets : List (String × Int)) (st : BuilderState)
    (h : (jsTruthy (normalizeOutputData od).asHash ||
      jsTruthy (normalizeOutputData od).inline) = true) :
    payToContract address od assets st = payToAddressWithData address od assets st := by
  simp only [payToContract, h, Bool.not_true, Bool.false_eq_true, if_false]
  rfl

/-- With the conflict check failing and a well-formed address,
payToAddressWithData appends its output and succeeds. -/
theorem payToAddressWithData_ok (address : Addr) (od : DatumOrOutputData)
    (assets : List (String × Int)) (st : BuilderState)
    (hmal : isMalformedAddr address = false)
    (hand : (jsTruthy (normalizeOutputData od).asHash &&
      jsTruthy (normalizeOutputData od).inline) = false) :
    (payToAddressWithData address od assets st).isOk = true := by
  simp only [payToAddressWithData]
  simp only [hand, hmal, Bool.false_eq_true, if_false]
  rfl

/-- C6 (amended): payToContract with neither datum kind set to a non-empty
string fails with UnspendableOutputError; whenever at least one is truthy it
delegates to payToAddressWithData and produces the identical result; and it
succeeds exactly when one datum kind is truthy and the address decodes —
when both are truthy the delegate rejects the pair with
ConflictingDatumError instead of succeeding. -/
theorem payToContract_datum_amended :
    (∀ (address : Addr) (od : DatumOrOutputData) (assets : List (String × Int))
        (st : BuilderState),
        (jsTruthy (normalizeOutputData od).asHash ||
          jsTruthy (normalizeOutputData od).inline) = true →
        payToContract address od assets st = payToAddressWithData address od assets st)
  ∧ (∀ (address : Addr) (od : DatumOrOutputData) (assets : List (String × Int))
        (st : BuilderState),
        jsTruthy (normalizeOutputData od).asHash = false →
        jsTruthy (normalizeOutputData od).inline = false →
        payToContract address od assets st = .error .UnspendableOutputError)
  ∧ (∀ (address : Addr) (od : DatumOrOutputData) (assets : List (String × Int))
        (st : BuilderState),
        isMalformedAddr address = false →
        jsTruthy (normalizeOutputData od).asHash ≠ jsTruthy (normalizeOutputData od).inline →
        (payToContract address od assets st).isOk = true) := by
  refine ⟨payToContract_delegates, ?_, ?_⟩
  · intro address od assets st h1 h2
    simp [payToContract, h1, h2]
  · intro address od assets st hmal hne
    have hor : (jsTruthy (normalizeOutputData od).asHash ||
        jsTruthy (normalizeOutputData od).inline) = true := by
      cases ha : jsTruthy (normalizeOutputData od).asHash <;>
        cases hb : jsTruthy (normalizeOutputData od).inline <;> simp_all
    have hand : (jsTruthy (normalizeOutputData od).asHash &&
        jsTruthy (normalizeOutputData od).inline) = false := by
      cases ha : jsTruthy (normalizeOutputData od).asHash <;>
        cases hb : jsTruthy (normalizeOutputData od).inline <;> simp_all
    rw [payToContract_delegates address od assets st hor]
    exact payToAddressWithData_ok address od assets st hmal hand

/-- Witness for the amended C6 theorem at concrete inputs: with one datum
kind set payToContract equals payToAddressWithData and succeeds, and with no
datum it fails with UnspendableOutputError. -/
theorem payToContract_datum_witness :
    payToContract baseA (.obj { asHash := some "aa" }) [] emptyB =
      payToAddressWithData baseA (.obj { asHash := some "aa" }) [] emptyB ∧
    payToContract baseA (.obj {}) [] emptyB = .error .UnspendableOutputError ∧
    (payToContract baseA (.obj { inline := some "bb" }) [] emptyB).isOk = true :=
  ⟨payToContract_datum_amended.1 baseA (.obj { asHash := some "aa" }) [] emptyB (by decide),
   payToContract_datum_amended.2.1 baseA (.obj {}) [] emptyB (by decide) (by decide),
   payToContract_datum_amended.2.2 baseA (.obj { inline := some "bb" }) [] emptyB
     (by decide) (by decide)⟩

/-- Counterexample to C6 as stated: with both asHash and inline set (both
non-empty), at least one datum kind is set, yet payToContract does not
succeed — the delegate fails with ConflictingDatumError. -/
theorem payToContract_both_datums_counterexample :
    payToContract baseA (.obj { asHash := some "aa", inline := some "bb" }) [] emptyB =
      .error .ConflictingDatumError := by
  decide

/-- C10 (amended): a bare datum string d behaves exactly as the object
setting asHash to d, for payToAddressWithData and payToContract alike; and
payToContract with a bare non-empty datum string never fails with
UnspendableOutputError.  For the empty string — which is falsy and therefore
treated as no datum at all — payToContract does fail with
UnspendableOutputError. -/
theorem bare_datum_string_amended :
    (∀ (address : Addr) (d : String) (assets : List (String × Int)) (st : BuilderState),
        payToAddressWithData address (.str d) assets st =
          payToAddressWithData address (.obj { asHash := some d }) assets st)
  ∧ (∀ (address : Addr) (d : String) (assets : List (String × Int)) (st : BuilderState),
        payToContract address (.str d) assets st =
          payToContract address (.obj { asHash := some d }) assets st)
  ∧ (∀ (address : Addr) (d : String) (assets : List (String × Int)) (st : BuilderState),
        d ≠ "" →
        payToContract address (.str d) assets st ≠ .error .UnspendableOutputError) := by
  refine ⟨fun _ _ _ _ => rfl, fun _ _ _ _ => rfl, ?_⟩
  intro address d assets st hd
  have ht : jsTruthy (some d) = true := by simp [jsTruthy, hd]
  cases hmal : isMalformedAddr address <;>
    simp [payToContract, payToAddressWithData, normalizeOutputData, jsTruthy, ht, hmal, hd]

/-- Witness for the amended C10 theorem at concrete inputs. -/
theorem bare_datum_string_witness :
    payToAddressWithData baseA (.str "dd") [] emptyB =
      payToAddressWithData baseA (.obj { asHash := some "dd" }) [] emptyB ∧
    payToContract baseA (.str "dd") [] emptyB ≠ .error .UnspendableOutputError :=
  ⟨bare_datum_string_amended.1 baseA "dd" [] emptyB,
   bare_datum_string_amended.2.2 baseA "dd" [] emptyB (by decide)⟩

/-- Counterexample to C10 as stated: with the bare empty datum string,
payToContract does fail with UnspendableOutputError, because the empty
string is falsy and the object form it is converted to has no truthy datum
kind. -/
theorem bare_datum_string_counterexample :
    payToContract baseA (.str "") [] emptyB = .error .UnspendableOutputError := by
  decide

/-- When every owner address decodes but some owner does not resolve to a
key-hash stake credential, the owners loop of createPoolRegistration stops
with UnsupportedCredentialType. -/
theorem resolveOwners_script_owner_error (owners : List Addr)
    (h1 : ∀ o ∈ owners, (getAddressDetails o).isOk = true)
    (h2 : ∃ o ∈ owners, resolveOwner o = .error .UnsupportedCredentialType) :
    resolveOwners owners = .error .UnsupportedCredentialType := by
  induction owners with
  | nil =>
    obtain ⟨o, ho, _⟩ := h2
    exact absurd ho (List.not_mem_nil o)
  | cons o os ih =>
    cases hr : resolveOwner o with
    | error e =>
      have hok := h1 o (List.mem_cons_self o os)
      have he : e = .UnsupportedCredentialType := by
        cases o with
        | malformed raw =>
          simp [getAddressDetails, Except.isOk, Except.toBool] at hok
        | base payment stake =>
          simp only [resolveOwner, getAddressDetails] at hr
          by_cases hk : (stake.kind == CredKind.Key) = true
          · rw [if_pos hk] at hr; exact absurd hr (by simp)
          · rw [if_neg hk] at hr
            simp only [Except.error.injEq] at hr
            exact hr.symm
        | reward stake =>
          simp only [resolveOwner, getAddressDetails] at hr
          by_cases hk : (stake.kind == CredKind.Key) = true
          · rw [if_pos hk] at hr; exact absurd hr (by simp)
          · rw [if_neg hk] at hr
            simp only [Except.error.injEq] at hr
            exact hr.symm
        | enterprise payment =>
          simp only [resolveOwner, getAddressDetails, Except.error.injEq] at hr
          exact hr.symm
        | pointer payment =>
          simp only [resolveOwner, getAddressDetails, Except.error.injEq] at hr
          exact hr.symm
        | byron raw =>
          simp only [resolveOwner, getAddressDetails, Except.error.injEq] at hr
          exact hr.symm
      subst he
      simp only [resolveOwners]
      rw [hr]
    | ok hh =>
      have h2' : ∃ o2 ∈ os, resolveOwner o2 = .error .UnsupportedCredentialType := by
        obtain ⟨o2, ho2, he2⟩ := h2
        cases List.mem_cons.mp ho2 with
        | inl heq => subst heq; rw [hr] at he2; exact absurd he2 (by simp)
        | inr hmem => exact ⟨o2, hmem, he2⟩
      have ih' := ih (fun o2 hm => h1 o2 (List.mem_cons_of_mem o hm)) h2'
      simp only [resolveOwners]
      rw [hr, ih']

/-- C8: registerPool with an owners list containing an address that resolves
to a script-hash stake credential succeeds at call time (it only pushes a
deferred task), and the UnsupportedCredentialType failure is raised later,
when the deferred pool-registration task runs during complete. -/
theorem registerPool_defers_owner_check
    (env : Env) (pp : PoolParams) (st : TxSt)
    (h1 : ∀ o ∈ pp.owners, (getAddressDetails o).isOk = true)
    (h2 : ∃ o ∈ pp.owners, resolveOwner o = .error .UnsupportedCredentialType) :
    registerPool pp st = { st with tasks := st.tasks ++ [Task.registerPool pp] } ∧
    (∀ b : BuilderState,
        runTask env (Task.registerPool pp) b = .error .UnsupportedCredentialType) ∧
    (st.tasks = [] →
        complete env none (registerPool pp st) = .error .UnsupportedCredentialType) := by
  have hro := resolveOwners_script_owner_error pp.owners h1 h2
  have htask : ∀ b : BuilderState,
      runTask env (Task.registerPool pp) b = .error .UnsupportedCredentialType := by
    intro b
    simp only [runTask, createPoolRegistration]
    rw [hro]
  refine ⟨rfl, htask, ?_⟩
  intro hempty
  unfold complete
  simp only [registerPool, hempty, List.nil_append, List.map_cons, List.map_nil,
    drainLoop, htask]
  rfl

/-- Witness for the C8 theorem at concrete inputs: with a single owner whose
address carries a script-hash stake credential, registerPool succeeds and
the failure surfaces from runTask and from complete. -/
theorem registerPool_defers_owner_check_witness :
    registerPool ppScript emptyTx =
      { emptyTx with tasks := emptyTx.tasks ++ [Task.registerPool ppScript] } ∧
    runTask env0 (Task.registerPool ppScript) emptyB = .error .UnsupportedCredentialType ∧
    complete env0 none (registerPool ppScript emptyTx) = .error .UnsupportedCredentialType :=
  have h := registerPool_defers_owner_check env0 ppScript emptyTx (by decide) (by decide)
  ⟨h.1, h.2.1 emptyB, h.2.2 rfl⟩

end LucidTx
